import Mathlib

/-!
# Verification of the `float_eq` derive-macro expansion (float_eq_derive)

Shallow embedding of `float_eq_derive/src/lib.rs`: the attribute macro
`derive_float_eq` and the six derive-macro expanders
(`expand_float_eq_ulps_epsilon`, `expand_float_eq_debug_ulps_diff`,
`expand_float_eq`, `expand_assert_float_eq`, `expand_float_eq_all`,
`expand_assert_float_eq_all`).  Emitted token streams are modelled as
structured values (lists of generated expressions, constructor expressions,
companion-type declarations) rather than raw text, preserving the field
order, method names, receiver/argument shapes and type names that the
`quote!` templates splice.

The helper module `read` (file `read.rs`) is not part of the sources at
hand; the definitions that stand for its items are modelled from the spec
and carry a doc comment saying so.
-/

namespace FloatEqDerive

/-- An argument of the `derive_float_eq` / `float_eq` attribute, as handed to
the macro: either a well-formed `name = "value"` pair, or any other token
tree (a bare path, a malformed pair such as `ulps_epsilon = 42`, ...),
kept as raw text. -/
inductive Arg where
  | nameValue (name : String) (value : String)
  | malformed (text : String)
deriving DecidableEq, Repr

/-- A parsed `name = "value"` attribute argument (struct `NameTypePair`). -/
structure NameTypePair where
  name : String
  value : String
deriving DecidableEq, Repr

/-- Modelled from the spec: `read::name_type_pair` (file `read.rs` is not in
the sources).  Parses one attribute argument as a `name = "value"` pair and
fails with a `MalformedParameterValue` condition on anything else
(spec §4.1, §7). -/
def name_type_pair : Arg → Except String NameTypePair
  | .nameValue n v => .ok ⟨n, v⟩
  | .malformed t => .error ("expected `name = \"value\"`, found " ++ t)

/-- Shape classification of the annotated declaration's field list
(enum `read::FieldListType`). -/
inductive FieldListType where
  | Named
  | Tuple
  | Unit
deriving DecidableEq, Repr

/-- One field descriptor: its identity (the declared name for named
aggregates, the index rendered as an integer literal for positional ones)
and its declared type, kept as text. -/
structure FieldInfo where
  name : String
  ty : String
deriving DecidableEq, Repr

/-- The extracted field list of the annotated declaration
(struct `read::FieldsInfo`). -/
structure FieldsInfo where
  ty : FieldListType
  fields : List FieldInfo
deriving DecidableEq, Repr

/-- The field list of a struct declaration, as written in the source. -/
inductive StructFields where
  | named (fields : List (String × String))
  | tuple (tys : List String)
  | unit
deriving DecidableEq, Repr

/-- The data part of the annotated declaration: a struct (one of the three
supported field-list shapes), an enum, or a union. -/
inductive DataShape where
  | structData (fields : StructFields)
  | enumData (variants : List String)
  | unionData (fields : List (String × String))
deriving DecidableEq, Repr

/-- The annotated declaration (syn's `DeriveInput` / `ItemStruct`):
visibility, type name, data shape, and the `float_eq` attribute arguments
attached to it. -/
structure DeriveInput where
  vis : String
  ident : String
  data : DataShape
  attrs : List Arg
deriving DecidableEq, Repr

/-- The structured error returned to the compiler, following the spec's
error taxonomy (§7): a missing required configuration key (carrying the
suggested replacement value and the full diagnostic message), an
unsupported declaration shape (naming the trait being derived), or a
malformed configuration value. -/
inductive ExpandError where
  | missingRequiredParameter (key : String) (suggested : String) (message : String)
  | unsupportedShape (traitName : String)
  | malformedParameterValue (text : String)
deriving DecidableEq, Repr

/-- The diagnostic text of `expand_derive_float_eq` when `ulps_epsilon` is
absent, built exactly as the `format!` call does: the suggested value
splices the type's own name before `Ulps`. -/
def missing_ulps_epsilon_message (typeName : String) : String :=
  "Missing epsilon ULPs type name required to derive trait.\n\nhelp: try specifying `ulps_epsilon = \"" ++ typeName ++ "Ulps\"` in `derive_float_eq`."

/-- The diagnostic text of `expand_derive_float_eq` when `debug_ulps_diff`
is absent: the suggested value splices the type's own name before
`DebugUlpsDiff`. -/
def missing_debug_ulps_diff_message (typeName : String) : String :=
  "Missing debug ULPs diff type name required to derive trait.\n\nhelp: try specifying `debug_ulps_diff = \"" ++ typeName ++ "DebugUlpsDiff\"` in `derive_float_eq`."

/-- The `has_arg` closure of `expand_derive_float_eq`: true iff some
argument parses as a `name = "value"` pair whose name matches; arguments
that fail to parse contribute `false` and are otherwise ignored. -/
def has_arg (args : List Arg) (name : String) : Bool :=
  args.any fun a =>
    match name_type_pair a with
    | .ok nv => nv.name == name
    | .error _ => false

/-- The output of the `derive_float_eq` attribute macro: a `#[derive(...)]`
attribute listing the requested trait names, a `#[float_eq(...)]` attribute
forwarding every original argument verbatim, and the annotated item itself,
re-emitted unchanged. -/
structure DeriveFloatEqOutput where
  derives : List String
  forwardedArgs : List Arg
  item : DeriveInput
deriving DecidableEq, Repr

/-- `expand_derive_float_eq`: checks that `ulps_epsilon` and
`debug_ulps_diff` are present (in that order, failing before any output is
produced), then requests the four unconditional trait derives plus
`FloatEqAll` and `AssertFloatEqAll` when `all_epsilon` is present, and
re-emits the item with the arguments forwarded. -/
def expand_derive_float_eq (args : List Arg) (item : DeriveInput) :
    Except ExpandError DeriveFloatEqOutput :=
  if !(has_arg args "ulps_epsilon") then
    .error (.missingRequiredParameter "ulps_epsilon" (item.ident ++ "Ulps")
      (missing_ulps_epsilon_message item.ident))
  else if !(has_arg args "debug_ulps_diff") then
    .error (.missingRequiredParameter "debug_ulps_diff" (item.ident ++ "DebugUlpsDiff")
      (missing_debug_ulps_diff_message item.ident))
  else
    let trait_names :=
      ["FloatEqUlpsEpsilon", "FloatEq", "FloatEqDebugUlpsDiff", "AssertFloatEq"] ++
        (if has_arg args "all_epsilon" then ["FloatEqAll", "AssertFloatEqAll"] else [])
    .ok ⟨trait_names, args, item⟩

/-- Modelled from the spec: `read::all_fields_info` (file `read.rs` is not
in the sources).  Classifies the annotated declaration into exactly one
`FieldListType` (spec §4.2): a named-field struct yields `Named` with one
descriptor per field in source order, a tuple struct yields `Tuple` with
the index rendered as an integer literal for each position, a unit struct
yields `Unit`; any other declaration shape fails with an `UnsupportedShape`
condition naming the trait being derived. -/
def all_fields_info (traitName : String) (input : DeriveInput) :
    Except ExpandError FieldsInfo :=
  match input.data with
  | .structData (.named fs) => .ok ⟨.Named, fs.map fun f => ⟨f.1, f.2⟩⟩
  | .structData (.tuple ts) => .ok ⟨.Tuple, ts.enum.map fun p => ⟨toString p.1, p.2⟩⟩
  | .structData .unit => .ok ⟨.Unit, []⟩
  | _ => .error (.unsupportedShape traitName)

/-- The first well-formed `key = "value"` pair with the given key among the
attribute arguments, if any. -/
def findPair (key : String) : List Arg → Option String
  | [] => none
  | .nameValue n v :: rest => if n == key then some v else findPair key rest
  | .malformed _ :: rest => findPair key rest

/-- Modelled from the spec: the `read::float_eq_attr` parameter accessors
(file `read.rs` is not in the sources).  Resolves one configuration key,
failing with a `MissingRequiredParameter` condition carrying a value
suggested from the type's own name when the key is absent (spec §4.1). -/
def float_eq_param (key : String) (suffix : String) (input : DeriveInput) :
    Except ExpandError String :=
  match findPair key input.attrs with
  | some v => .ok v
  | none => .error (.missingRequiredParameter key (input.ident ++ suffix)
      ("Missing `" ++ key ++ "` type name required to derive trait."))

/-- `FloatEqAttr::ulps_epsilon_type`: the configured ULPS-epsilon companion
type name. -/
def ulps_epsilon_type (input : DeriveInput) : Except ExpandError String :=
  float_eq_param "ulps_epsilon" "Ulps" input

/-- `FloatEqAttr::debug_ulps_diff`: the configured debug-diff companion
type name. -/
def debug_ulps_diff_type (input : DeriveInput) : Except ExpandError String :=
  float_eq_param "debug_ulps_diff" "DebugUlpsDiff" input

/-- `FloatEqAttr::all_epsilon_type`: the configured shared-epsilon type
name. -/
def all_epsilon_type (input : DeriveInput) : Except ExpandError String :=
  float_eq_param "all_epsilon" "AllEpsilon" input

/-- The type-level mapping spliced for each field of the ULPS-epsilon
companion: `float_eq::UlpsEpsilon<T>`. -/
def ulpsEpsilonTy (t : String) : String :=
  "float_eq::UlpsEpsilon<" ++ t ++ ">"

/-- The type-level mapping spliced for each field of the debug-diff
companion: `float_eq::DebugUlpsDiff<T>`. -/
def debugUlpsDiffTy (t : String) : String :=
  "float_eq::DebugUlpsDiff<" ++ t ++ ">"

/-- The field list of an emitted companion type declaration, mirroring the
three `quote!` branches: named fields (`name: MappedTy`), tuple fields
(`MappedTy` in order), or a field-less unit declaration. -/
inductive CompanionBody where
  | named (fields : List (String × String))
  | tuple (tys : List String)
  | unit
deriving DecidableEq, Repr

/-- An emitted companion type declaration: its visibility, its name (from
the configuration), its field list, and the traits listed in its
`#[derive(...)]` attribute. -/
structure CompanionDecl where
  vis : String
  name : String
  body : CompanionBody
  derives : List String
deriving DecidableEq, Repr

/-- The output of `expand_float_eq_ulps_epsilon`: the companion type
declaration plus the `impl float_eq::FloatEqUlpsEpsilon for #struct_name`
binding the associated type `UlpsEpsilon` to the companion's name. -/
structure UlpsEpsilonOutput where
  companion : CompanionDecl
  implFor : String
  assocUlpsEpsilon : String
deriving DecidableEq, Repr

/-- `expand_float_eq_ulps_epsilon`: emits the ULPS-epsilon companion type
(named/tuple/unit following the input's shape, each field type `T` replaced
by `float_eq::UlpsEpsilon<T>`, the input's visibility, deriving Clone,
Copy, Debug, PartialEq) and the associated-type impl. -/
def expand_float_eq_ulps_epsilon (input : DeriveInput) :
    Except ExpandError UlpsEpsilonOutput := do
  let fields ← all_fields_info "FloatEqUlpsEpsilon" input
  let ulps_name ← ulps_epsilon_type input
  let body : CompanionBody :=
    match fields.ty with
    | .Named => .named (fields.fields.map fun f => (f.name, ulpsEpsilonTy f.ty))
    | .Tuple => .tuple (fields.fields.map fun f => ulpsEpsilonTy f.ty)
    | .Unit => .unit
  .ok ⟨⟨input.vis, ulps_name, body, ["Clone", "Copy", "Debug", "PartialEq"]⟩,
    input.ident, ulps_name⟩

/-- The output of `expand_float_eq_debug_ulps_diff`: the companion type
declaration plus the `impl float_eq::FloatEqDebugUlpsDiff for #struct_name`
binding the associated type `DebugUlpsDiff` to the companion's name. -/
structure DebugUlpsDiffOutput where
  companion : CompanionDecl
  implFor : String
  assocDebugUlpsDiff : String
deriving DecidableEq, Repr

/-- `expand_float_eq_debug_ulps_diff`: emits the debug-diff companion type
(named/tuple/unit following the input's shape, each field type `T` replaced
by `float_eq::DebugUlpsDiff<T>`, the input's visibility, deriving Clone,
Copy, Debug, PartialEq) and the associated-type impl. -/
def expand_float_eq_debug_ulps_diff (input : DeriveInput) :
    Except ExpandError DebugUlpsDiffOutput := do
  let fields ← all_fields_info "FloatEqDebugUlpsDiff" input
  let ulps_name ← debug_ulps_diff_type input
  let body : CompanionBody :=
    match fields.ty with
    | .Named => .named (fields.fields.map fun f => (f.name, debugUlpsDiffTy f.ty))
    | .Tuple => .tuple (fields.fields.map fun f => debugUlpsDiffTy f.ty)
    | .Unit => .unit
  .ok ⟨⟨input.vis, ulps_name, body, ["Clone", "Copy", "Debug", "PartialEq"]⟩,
    input.ident, ulps_name⟩

/-- The argument shape of a per-field method call in an emitted body:
`(&other.#name)` alone, `(&other.#name, &max_diff.#name)` with the
tolerance projected to the same field, or `(&other.#name, max_diff)` with
the single shared tolerance passed whole. -/
inductive CallArgs where
  | otherOnly
  | otherAndProjEps
  | otherAndSharedEps
deriving DecidableEq, Repr

/-- One emitted per-field method call `self.#name.#method(...)`. -/
structure FieldCall where
  field : String
  method : String
  args : CallArgs
deriving DecidableEq, Repr

/-- One conjunct of an emitted boolean method body: either the literal
`true` or a per-field method call. -/
inductive CmpExpr where
  | litTrue
  | call (c : FieldCall)
deriving DecidableEq, Repr

/-- Value of one conjunct under an interpretation `sem` of the per-field
calls (the operands and tolerances are fixed inside `sem`). -/
def evalCmpExpr (sem : FieldCall → Bool) : CmpExpr → Bool
  | .litTrue => true
  | .call c => sem c

/-- Value of an emitted method body `e1 && e2 && ...` under `sem`:
the conjuncts are combined with `&&`, left to right; the empty splice
never occurs in emitted code but is vacuously true. -/
def evalBody (sem : FieldCall → Bool) : List CmpExpr → Bool
  | [] => true
  | e :: rest => evalCmpExpr sem e && evalBody sem rest

/-- The `expand_exprs` closure of `expand_float_eq`: one call
`self.#name.#method(&other.#name, &max_diff.#name)` per field in
declaration order, replaced by the single literal `true` when the field
list is empty. -/
def expand_exprs (fields : FieldsInfo) (method : String) : List CmpExpr :=
  let expanded := fields.fields.map fun f => CmpExpr.call ⟨f.name, method, .otherAndProjEps⟩
  if expanded.isEmpty then [CmpExpr.litTrue] else expanded

/-- The emitted `impl float_eq::FloatEq for #struct_name`: the associated
type `Epsilon` and the six comparison method bodies; `ulpsName` is the
companion type name spliced into `eq_ulps`'s tolerance parameter. -/
structure FloatEqImpl where
  structName : String
  epsilonAssoc : String
  ulpsName : String
  eq_abs : List CmpExpr
  eq_rmax : List CmpExpr
  eq_rmin : List CmpExpr
  eq_r1st : List CmpExpr
  eq_r2nd : List CmpExpr
  eq_ulps : List CmpExpr
deriving DecidableEq, Repr

/-- `expand_float_eq`: emits the `FloatEq` impl with `type Epsilon = Self`
and the six comparison methods, each the `&&`-splice of one per-field call
per field. -/
def expand_float_eq (input : DeriveInput) : Except ExpandError FloatEqImpl := do
  let fields ← all_fields_info "FloatEq" input
  let ulps_name ← ulps_epsilon_type input
  .ok ⟨input.ident, "Self", ulps_name,
    expand_exprs fields "eq_abs",
    expand_exprs fields "eq_rmax",
    expand_exprs fields "eq_rmin",
    expand_exprs fields "eq_r1st",
    expand_exprs fields "eq_r2nd",
    expand_exprs fields "eq_ulps"⟩

/-- The `expand_exprs` closure of `expand_float_eq_all`: one call
`self.#name.#method(&other.#name, max_diff)` per field in declaration order
(the shared tolerance is passed whole, not projected), replaced by the
single literal `true` when the field list is empty. -/
def expand_exprs_all (fields : FieldsInfo) (method : String) : List CmpExpr :=
  let expanded := fields.fields.map fun f => CmpExpr.call ⟨f.name, method, .otherAndSharedEps⟩
  if expanded.isEmpty then [CmpExpr.litTrue] else expanded

/-- The emitted `impl float_eq::FloatEqAll for #struct_name`: the
associated type `AllEpsilon` and the six shared-epsilon comparison method
bodies. -/
structure FloatEqAllImpl where
  structName : String
  allEpsilonAssoc : String
  eq_abs_all : List CmpExpr
  eq_rmax_all : List CmpExpr
  eq_rmin_all : List CmpExpr
  eq_r1st_all : List CmpExpr
  eq_r2nd_all : List CmpExpr
  eq_ulps_all : List CmpExpr
deriving DecidableEq, Repr

/-- `expand_float_eq_all`: emits the `FloatEqAll` impl with
`type AllEpsilon = #all_epsilon` and the six `_all` comparison methods,
each the `&&`-splice of one per-field `_all` call per field with the shared
tolerance. -/
def expand_float_eq_all (input : DeriveInput) : Except ExpandError FloatEqAllImpl := do
  let fields ← all_fields_info "FloatEqAll" input
  let all_epsilon ← all_epsilon_type input
  .ok ⟨input.ident, all_epsilon,
    expand_exprs_all fields "eq_abs_all",
    expand_exprs_all fields "eq_rmax_all",
    expand_exprs_all fields "eq_rmin_all",
    expand_exprs_all fields "eq_r1st_all",
    expand_exprs_all fields "eq_r2nd_all",
    expand_exprs_all fields "eq_ulps_all"⟩

/-- An emitted constructor expression for a value-producing method body:
a braced construction `TypeName { field: call, ... }` (the field label is a
name or an integer index), a positional construction `TypeName(call, ...)`,
or a bare marker construction `TypeName`.  The emitters in the source only
ever produce the braced form; the other two forms exist so that statements
about the constructor syntax can be expressed. -/
inductive CtorExpr where
  | braced (typeName : String) (assigns : List (String × FieldCall))
  | positional (typeName : String) (vals : List FieldCall)
  | bare (typeName : String)
deriving DecidableEq, Repr

/-- The emitted `impl float_eq::AssertFloatEq for #struct_name`: the two
associated types and the eight value-producing method bodies. -/
structure AssertFloatEqImpl where
  structName : String
  debugAbsDiffAssoc : String
  debugEpsilonAssoc : String
  debug_abs_diff : CtorExpr
  debug_ulps_diff : CtorExpr
  debug_abs_epsilon : CtorExpr
  debug_rmax_epsilon : CtorExpr
  debug_rmin_epsilon : CtorExpr
  debug_r1st_epsilon : CtorExpr
  debug_r2nd_epsilon : CtorExpr
  debug_ulps_epsilon : CtorExpr
deriving DecidableEq, Repr

/-- The `expand_diff_fields` closure of `expand_assert_float_eq`: one
assignment `#name: self.#name.#method(&other.#name)` per field in
declaration order. -/
def expand_diff_fields (fields : FieldsInfo) (method : String) :
    List (String × FieldCall) :=
  fields.fields.map fun f => (f.name, ⟨f.name, method, .otherOnly⟩)

/-- The `expand_eps_fields` closure of `expand_assert_float_eq`: one
assignment `#name: self.#name.#method(&other.#name, &max_diff.#name)` per
field in declaration order. -/
def expand_eps_fields (fields : FieldsInfo) (method : String) :
    List (String × FieldCall) :=
  fields.fields.map fun f => (f.name, ⟨f.name, method, .otherAndProjEps⟩)

/-- `expand_assert_float_eq`: emits the `AssertFloatEq` impl with
`type DebugAbsDiff = Self`, `type DebugEpsilon = Self`, and the eight
value-producing methods; every body is a braced constructor (`Self`, the
debug-diff companion, or the ULPS companion) holding one per-field
assignment per field. -/
def expand_assert_float_eq (input : DeriveInput) :
    Except ExpandError AssertFloatEqImpl := do
  let fields ← all_fields_info "AssertFloatEq" input
  let ulps_name ← ulps_epsilon_type input
  let diff_name ← debug_ulps_diff_type input
  .ok ⟨input.ident, "Self", "Self",
    .braced "Self" (expand_diff_fields fields "debug_abs_diff"),
    .braced diff_name (expand_diff_fields fields "debug_ulps_diff"),
    .braced "Self" (expand_eps_fields fields "debug_abs_epsilon"),
    .braced "Self" (expand_eps_fields fields "debug_rmax_epsilon"),
    .braced "Self" (expand_eps_fields fields "debug_rmin_epsilon"),
    .braced "Self" (expand_eps_fields fields "debug_r1st_epsilon"),
    .braced "Self" (expand_eps_fields fields "debug_r2nd_epsilon"),
    .braced ulps_name (expand_eps_fields fields "debug_ulps_epsilon")⟩

/-- The emitted `impl float_eq::AssertFloatEqAll for #struct_name`: the
associated type `AllDebugEpsilon` and the six shared-epsilon
value-producing method bodies. -/
structure AssertFloatEqAllImpl where
  structName : String
  allDebugEpsilonAssoc : String
  debug_abs_all_epsilon : CtorExpr
  debug_rmax_all_epsilon : CtorExpr
  debug_rmin_all_epsilon : CtorExpr
  debug_r1st_all_epsilon : CtorExpr
  debug_r2nd_all_epsilon : CtorExpr
  debug_ulps_all_epsilon : CtorExpr
deriving DecidableEq, Repr

/-- The `expand_fields` closure of `expand_assert_float_eq_all`: one
assignment `#name: self.#name.#method(&other.#name, max_diff)` per field in
declaration order, the shared tolerance passed whole. -/
def expand_all_eps_fields (fields : FieldsInfo) (method : String) :
    List (String × FieldCall) :=
  fields.fields.map fun f => (f.name, ⟨f.name, method, .otherAndSharedEps⟩)

/-- `expand_assert_float_eq_all`: emits the `AssertFloatEqAll` impl with
`type AllDebugEpsilon = Self` and the six shared-epsilon value-producing
methods; every body is a braced constructor (`Self`, or for
`debug_ulps_all_epsilon` the path `::float_eq::UlpsEpsilon::<Self::AllDebugEpsilon>`)
holding one per-field assignment per field. -/
def expand_assert_float_eq_all (input : DeriveInput) :
    Except ExpandError AssertFloatEqAllImpl := do
  let fields ← all_fields_info "AssertFloatEqAll" input
  let _all_epsilon ← all_epsilon_type input
  .ok ⟨input.ident, "Self",
    .braced "Self" (expand_all_eps_fields fields "debug_abs_all_epsilon"),
    .braced "Self" (expand_all_eps_fields fields "debug_rmax_all_epsilon"),
    .braced "Self" (expand_all_eps_fields fields "debug_rmin_all_epsilon"),
    .braced "Self" (expand_all_eps_fields fields "debug_r1st_all_epsilon"),
    .braced "Self" (expand_all_eps_fields fields "debug_r2nd_all_epsilon"),
    .braced "::float_eq::UlpsEpsilon::<Self::AllDebugEpsilon>"
      (expand_all_eps_fields fields "debug_ulps_all_epsilon")⟩

/-! ## Helper lemmas -/

/-- The trait name passed to `all_fields_info` only affects the error
branch: a successful classification is the same for every trait name. -/
theorem all_fields_info_irrel (t t' : String) (input : DeriveInput) (fi : FieldsInfo)
    (h : all_fields_info t input = .ok fi) : all_fields_info t' input = .ok fi := by
  cases hd : input.data with
  | structData sf =>
    cases sf <;> simp only [all_fields_info, hd] at h ⊢ <;> exact h
  | enumData vs => simp [all_fields_info, hd] at h
  | unionData fs => simp [all_fields_info, hd] at h

/-- The body a comparison-method emitter produces for the given field list,
method name and tolerance-argument shape: one call per field, in
declaration order. -/
def perFieldBody (fs : List FieldInfo) (method : String) (a : CallArgs) : List CmpExpr :=
  fs.map fun f => CmpExpr.call ⟨f.name, method, a⟩

/-- `expand_exprs` on a nonempty field list is the per-field call list with
the projected tolerance. -/
theorem expand_exprs_of_ne_nil (fields : FieldsInfo) (m : String)
    (h : fields.fields ≠ []) :
    expand_exprs fields m = perFieldBody fields.fields m .otherAndProjEps := by
  cases hf : fields.fields with
  | nil => exact absurd hf h
  | cons a t => simp [expand_exprs, perFieldBody, hf]

/-- `expand_exprs_all` on a nonempty field list is the per-field call list
with the shared tolerance. -/
theorem expand_exprs_all_of_ne_nil (fields : FieldsInfo) (m : String)
    (h : fields.fields ≠ []) :
    expand_exprs_all fields m = perFieldBody fields.fields m .otherAndSharedEps := by
  cases hf : fields.fields with
  | nil => exact absurd hf h
  | cons a t => simp [expand_exprs_all, perFieldBody, hf]

/-- Evaluating a per-field call list is the `all`-fold of the per-field
results. -/
theorem evalBody_perFieldBody (sem : FieldCall → Bool) (fs : List FieldInfo)
    (m : String) (a : CallArgs) :
    evalBody sem (perFieldBody fs m a) = fs.all fun f => sem ⟨f.name, m, a⟩ := by
  induction fs with
  | nil => rfl
  | cons f t ih => simp [perFieldBody, evalBody, evalCmpExpr, List.all_cons] at ih ⊢; simp [ih]

/-- What the claims state about one emitted comparison-method body for a
nonempty field list: the body is exactly the per-field call list (so the
emitted expression is the left-to-right `&&` of the per-field calls in
declaration order), its value is the `all`-fold of the per-field results,
and it is true exactly when every field's call is. -/
def comparatorBodyOk (sem : FieldCall → Bool) (fs : List FieldInfo) (m : String)
    (a : CallArgs) (body : List CmpExpr) : Prop :=
  body = perFieldBody fs m a ∧
  evalBody sem body = (fs.all fun f => sem ⟨f.name, m, a⟩) ∧
  (evalBody sem body = true ↔ ∀ f ∈ fs, sem ⟨f.name, m, a⟩ = true)

/-- `comparatorBodyOk` follows from the body equality alone. -/
theorem comparatorBodyOk_of (sem : FieldCall → Bool) (fs : List FieldInfo)
    (m : String) (a : CallArgs) (body : List CmpExpr)
    (h : body = perFieldBody fs m a) : comparatorBodyOk sem fs m a body := by
  refine ⟨h, ?_, ?_⟩
  · rw [h, evalBody_perFieldBody]
  · rw [h, evalBody_perFieldBody, List.all_eq_true]

/-- Inversion of a successful `expand_float_eq`: the configured ULPS name
resolved and the output is the record the emitter builds. -/
theorem expand_float_eq_ok_inv (input : DeriveInput) (fi : FieldsInfo) (out : FloatEqImpl)
    (hfi : all_fields_info "FloatEq" input = .ok fi)
    (hok : expand_float_eq input = .ok out) :
    ∃ u, ulps_epsilon_type input = .ok u ∧
      out = ⟨input.ident, "Self", u,
        expand_exprs fi "eq_abs", expand_exprs fi "eq_rmax", expand_exprs fi "eq_rmin",
        expand_exprs fi "eq_r1st", expand_exprs fi "eq_r2nd", expand_exprs fi "eq_ulps"⟩ := by
  unfold expand_float_eq at hok
  rw [hfi] at hok
  cases hu : ulps_epsilon_type input with
  | error e => rw [hu] at hok; simp [Bind.bind, Except.bind] at hok
  | ok u =>
    rw [hu] at hok
    simp only [Bind.bind, Except.bind, Except.ok.injEq] at hok
    exact ⟨u, rfl, hok.symm⟩

/-- Inversion of a successful `expand_float_eq_all`: the configured shared
epsilon name resolved and the output is the record the emitter builds. -/
theorem expand_float_eq_all_ok_inv (input : DeriveInput) (fi : FieldsInfo)
    (out : FloatEqAllImpl)
    (hfi : all_fields_info "FloatEqAll" input = .ok fi)
    (hok : expand_float_eq_all input = .ok out) :
    ∃ a, all_epsilon_type input = .ok a ∧
      out = ⟨input.ident, a,
        expand_exprs_all fi "eq_abs_all", expand_exprs_all fi "eq_rmax_all",
        expand_exprs_all fi "eq_rmin_all", expand_exprs_all fi "eq_r1st_all",
        expand_exprs_all fi "eq_r2nd_all", expand_exprs_all fi "eq_ulps_all"⟩ := by
  unfold expand_float_eq_all at hok
  rw [hfi] at hok
  cases ha : all_epsilon_type input with
  | error e => rw [ha] at hok; simp [Bind.bind, Except.bind] at hok
  | ok a =>
    rw [ha] at hok
    simp only [Bind.bind, Except.bind, Except.ok.injEq] at hok
    exact ⟨a, rfl, hok.symm⟩

/-! ## Concrete example declarations used by witnesses -/

/-- `pub struct Point { x: f64, y: f64 }` with
`ulps_epsilon = "PointUlps"`, `debug_ulps_diff = "PointDiff"`,
`all_epsilon = "f64"`. -/
def inpNamed2 : DeriveInput :=
  ⟨"pub", "Point", .structData (.named [("x", "f64"), ("y", "f64")]),
    [.nameValue "ulps_epsilon" "PointUlps", .nameValue "debug_ulps_diff" "PointDiff",
      .nameValue "all_epsilon" "f64"]⟩

/-- The extracted field list of `inpNamed2`. -/
def fiNamed2 : FieldsInfo := ⟨.Named, [⟨"x", "f64"⟩, ⟨"y", "f64"⟩]⟩

/-- `struct Wrap(f32);` with the same attribute parameters. -/
def inpTuple1 : DeriveInput :=
  ⟨"", "Wrap", .structData (.tuple ["f32"]),
    [.nameValue "ulps_epsilon" "WrapUlps", .nameValue "debug_ulps_diff" "WrapDiff",
      .nameValue "all_epsilon" "f32"]⟩

/-- `struct Marker;` with the same attribute parameters. -/
def inpUnit : DeriveInput :=
  ⟨"", "Marker", .structData .unit,
    [.nameValue "ulps_epsilon" "MarkerUlps", .nameValue "debug_ulps_diff" "MarkerDiff",
      .nameValue "all_epsilon" "f64"]⟩

/-- `enum Choice { A, B }` — an unsupported declaration shape. -/
def inpEnum : DeriveInput :=
  ⟨"", "Choice", .enumData ["A", "B"],
    [.nameValue "ulps_epsilon" "ChoiceUlps", .nameValue "debug_ulps_diff" "ChoiceDiff"]⟩

/-- The `FloatEq` impl emitted for `inpNamed2`. -/
def outFloatEqNamed2 : FloatEqImpl :=
  ⟨"Point", "Self", "PointUlps",
    perFieldBody fiNamed2.fields "eq_abs" .otherAndProjEps,
    perFieldBody fiNamed2.fields "eq_rmax" .otherAndProjEps,
    perFieldBody fiNamed2.fields "eq_rmin" .otherAndProjEps,
    perFieldBody fiNamed2.fields "eq_r1st" .otherAndProjEps,
    perFieldBody fiNamed2.fields "eq_r2nd" .otherAndProjEps,
    perFieldBody fiNamed2.fields "eq_ulps" .otherAndProjEps⟩

/-- The `FloatEqAll` impl emitted for `inpNamed2`. -/
def outFloatEqAllNamed2 : FloatEqAllImpl :=
  ⟨"Point", "f64",
    perFieldBody fiNamed2.fields "eq_abs_all" .otherAndSharedEps,
    perFieldBody fiNamed2.fields "eq_rmax_all" .otherAndSharedEps,
    perFieldBody fiNamed2.fields "eq_rmin_all" .otherAndSharedEps,
    perFieldBody fiNamed2.fields "eq_r1st_all" .otherAndSharedEps,
    perFieldBody fiNamed2.fields "eq_r2nd_all" .otherAndSharedEps,
    perFieldBody fiNamed2.fields "eq_ulps_all" .otherAndSharedEps⟩

/-- A concrete interpretation of the per-field calls, used by witnesses. -/
def semW : FieldCall → Bool := fun c => c.field == "x" || c.field == "y"

/-! ## Claim theorems -/

/-- Claim C1: for every named or positional aggregate with at least one
field, each of the six comparison methods of the emitted `FloatEq` impl and
the six of the emitted `FloatEqAll` impl has as its body exactly the
left-to-right `&&` of the same-named per-field calls in field declaration
order; it evaluates to true iff every field's call does; the per-field
family projects the tolerance to the field (`&max_diff.#name`) while the
shared-epsilon family passes the single shared tolerance (`max_diff`) to
every field. -/
theorem C1_comparator_bodies (input : DeriveInput) (fi : FieldsInfo)
    (out : FloatEqImpl) (outAll : FloatEqAllImpl) (sem : FieldCall → Bool)
    (hfi : all_fields_info "FloatEq" input = .ok fi)
    (hne : fi.fields ≠ [])
    (hok : expand_float_eq input = .ok out)
    (hokAll : expand_float_eq_all input = .ok outAll) :
    comparatorBodyOk sem fi.fields "eq_abs" .otherAndProjEps out.eq_abs ∧
    comparatorBodyOk sem fi.fields "eq_rmax" .otherAndProjEps out.eq_rmax ∧
    comparatorBodyOk sem fi.fields "eq_rmin" .otherAndProjEps out.eq_rmin ∧
    comparatorBodyOk sem fi.fields "eq_r1st" .otherAndProjEps out.eq_r1st ∧
    comparatorBodyOk sem fi.fields "eq_r2nd" .otherAndProjEps out.eq_r2nd ∧
    comparatorBodyOk sem fi.fields "eq_ulps" .otherAndProjEps out.eq_ulps ∧
    comparatorBodyOk sem fi.fields "eq_abs_all" .otherAndSharedEps outAll.eq_abs_all ∧
    comparatorBodyOk sem fi.fields "eq_rmax_all" .otherAndSharedEps outAll.eq_rmax_all ∧
    comparatorBodyOk sem fi.fields "eq_rmin_all" .otherAndSharedEps outAll.eq_rmin_all ∧
    comparatorBodyOk sem fi.fields "eq_r1st_all" .otherAndSharedEps outAll.eq_r1st_all ∧
    comparatorBodyOk sem fi.fields "eq_r2nd_all" .otherAndSharedEps outAll.eq_r2nd_all ∧
    comparatorBodyOk sem fi.fields "eq_ulps_all" .otherAndSharedEps outAll.eq_ulps_all := by
  obtain ⟨u, hu, hout⟩ := expand_float_eq_ok_inv input fi out hfi hok
  obtain ⟨a, ha, houtAll⟩ :=
    expand_float_eq_all_ok_inv input fi outAll (all_fields_info_irrel _ _ _ _ hfi) hokAll
  subst hout
  subst houtAll
  refine ⟨?_, ?_, ?_, ?_, ?_, ?_, ?_, ?_, ?_, ?_, ?_, ?_⟩ <;>
    exact comparatorBodyOk_of _ _ _ _ _
      (by simp [expand_exprs_of_ne_nil _ _ hne, expand_exprs_all_of_ne_nil _ _ hne])

/-- Witness for C1 at `inpNamed2` with the interpretation `semW`. -/
theorem C1_witness :
    outFloatEqNamed2.eq_abs = perFieldBody fiNamed2.fields "eq_abs" .otherAndProjEps ∧
    outFloatEqAllNamed2.eq_abs_all =
      perFieldBody fiNamed2.fields "eq_abs_all" .otherAndSharedEps ∧
    evalBody semW outFloatEqNamed2.eq_abs =
      (fiNamed2.fields.all fun f => semW ⟨f.name, "eq_abs", .otherAndProjEps⟩) := by
  have h := C1_comparator_bodies inpNamed2 fiNamed2 outFloatEqNamed2 outFloatEqAllNamed2
    semW rfl (by decide) rfl rfl
  exact ⟨h.1.1, h.2.2.2.2.2.2.1.1, h.1.2.1⟩

/-- `expand_exprs` on an empty field list is the single literal `true`. -/
theorem expand_exprs_of_nil (fields : FieldsInfo) (m : String)
    (h : fields.fields = []) : expand_exprs fields m = [CmpExpr.litTrue] := by
  simp [expand_exprs, h]

/-- `expand_exprs_all` on an empty field list is the single literal
`true`. -/
theorem expand_exprs_all_of_nil (fields : FieldsInfo) (m : String)
    (h : fields.fields = []) : expand_exprs_all fields m = [CmpExpr.litTrue] := by
  simp [expand_exprs_all, h]

/-- What the claims state about one emitted comparison-method body of a
zero-field aggregate: the body is the single literal `true`, so it
evaluates to true under every interpretation of the operands and
tolerances. -/
def trivialBody (sem : FieldCall → Bool) (body : List CmpExpr) : Prop :=
  body = [CmpExpr.litTrue] ∧ evalBody sem body = true

/-- The `FloatEq` impl emitted for `inpUnit`. -/
def outFloatEqUnit : FloatEqImpl :=
  ⟨"Marker", "Self", "MarkerUlps", [.litTrue], [.litTrue], [.litTrue],
    [.litTrue], [.litTrue], [.litTrue]⟩

/-- The `FloatEqAll` impl emitted for `inpUnit`. -/
def outFloatEqAllUnit : FloatEqAllImpl :=
  ⟨"Marker", "f64", [.litTrue], [.litTrue], [.litTrue],
    [.litTrue], [.litTrue], [.litTrue]⟩

/-- Claim C2: for every zero-field aggregate, every one of the six
comparison methods of the emitted `FloatEq` impl and the six of the emitted
`FloatEqAll` impl has the single literal `true` as its body, so it returns
true for all operands and all tolerance values. -/
theorem C2_empty_always_true (input : DeriveInput) (fi : FieldsInfo)
    (out : FloatEqImpl) (outAll : FloatEqAllImpl) (sem : FieldCall → Bool)
    (hfi : all_fields_info "FloatEq" input = .ok fi)
    (hz : fi.fields = [])
    (hok : expand_float_eq input = .ok out)
    (hokAll : expand_float_eq_all input = .ok outAll) :
    trivialBody sem out.eq_abs ∧ trivialBody sem out.eq_rmax ∧
    trivialBody sem out.eq_rmin ∧ trivialBody sem out.eq_r1st ∧
    trivialBody sem out.eq_r2nd ∧ trivialBody sem out.eq_ulps ∧
    trivialBody sem outAll.eq_abs_all ∧ trivialBody sem outAll.eq_rmax_all ∧
    trivialBody sem outAll.eq_rmin_all ∧ trivialBody sem outAll.eq_r1st_all ∧
    trivialBody sem outAll.eq_r2nd_all ∧ trivialBody sem outAll.eq_ulps_all := by
  obtain ⟨u, hu, hout⟩ := expand_float_eq_ok_inv input fi out hfi hok
  obtain ⟨a, ha, houtAll⟩ :=
    expand_float_eq_all_ok_inv input fi outAll (all_fields_info_irrel _ _ _ _ hfi) hokAll
  subst hout
  subst houtAll
  refine ⟨?_, ?_, ?_, ?_, ?_, ?_, ?_, ?_, ?_, ?_, ?_, ?_⟩ <;>
    exact ⟨by simp [expand_exprs_of_nil _ _ hz, expand_exprs_all_of_nil _ _ hz], by
      simp [expand_exprs_of_nil _ _ hz, expand_exprs_all_of_nil _ _ hz,
        evalBody, evalCmpExpr]⟩

/-- Witness for C2 at the unit struct `inpUnit` with the interpretation
`semW`. -/
theorem C2_witness :
    trivialBody semW outFloatEqUnit.eq_abs ∧
    trivialBody semW outFloatEqAllUnit.eq_ulps_all := by
  have h := C2_empty_always_true inpUnit ⟨.Unit, []⟩ outFloatEqUnit outFloatEqAllUnit
    semW rfl rfl rfl rfl
  exact ⟨h.1, h.2.2.2.2.2.2.2.2.2.2.2⟩

/-- Claim C3: when the attribute list lacks `ulps_epsilon`, expansion fails
(before any output is produced) with a missing-required-parameter error
whose suggested value is the type's own name followed by `Ulps`; when it
has `ulps_epsilon` but lacks `debug_ulps_diff`, it fails with the
missing-required-parameter error whose suggested value is the type's own
name followed by `DebugUlpsDiff`. -/
theorem C3_missing_param_errors (args : List Arg) (item : DeriveInput) :
    (has_arg args "ulps_epsilon" = false →
      expand_derive_float_eq args item =
        .error (.missingRequiredParameter "ulps_epsilon" (item.ident ++ "Ulps")
          (missing_ulps_epsilon_message item.ident))) ∧
    (has_arg args "ulps_epsilon" = true → has_arg args "debug_ulps_diff" = false →
      expand_derive_float_eq args item =
        .error (.missingRequiredParameter "debug_ulps_diff" (item.ident ++ "DebugUlpsDiff")
          (missing_debug_ulps_diff_message item.ident))) := by
  constructor
  · intro h
    simp [expand_derive_float_eq, h]
  · intro h1 h2
    simp [expand_derive_float_eq, h1, h2]

/-- Witness for C3: `struct Point` annotated without `ulps_epsilon`, and
annotated without `debug_ulps_diff`. -/
theorem C3_witness :
    expand_derive_float_eq [.nameValue "debug_ulps_diff" "PointDiff"] inpNamed2 =
      .error (.missingRequiredParameter "ulps_epsilon" "PointUlps"
        (missing_ulps_epsilon_message "Point")) ∧
    expand_derive_float_eq [.nameValue "ulps_epsilon" "PointUlps"] inpNamed2 =
      .error (.missingRequiredParameter "debug_ulps_diff" "PointDebugUlpsDiff"
        (missing_debug_ulps_diff_message "Point")) :=
  ⟨(C3_missing_param_errors [.nameValue "debug_ulps_diff" "PointDiff"] inpNamed2).1 rfl,
    (C3_missing_param_errors [.nameValue "ulps_epsilon" "PointUlps"] inpNamed2).2 rfl rfl⟩

/-- Claim C4: whenever both required keys are present, expansion succeeds
and requests exactly the four unconditional trait implementations, plus
`FloatEqAll` and `AssertFloatEqAll` exactly when `all_epsilon` is present;
the absence of `all_epsilon` is never an error. -/
theorem C4_requested_traits (args : List Arg) (item : DeriveInput)
    (h1 : has_arg args "ulps_epsilon" = true)
    (h2 : has_arg args "debug_ulps_diff" = true) :
    expand_derive_float_eq args item =
      .ok ⟨["FloatEqUlpsEpsilon", "FloatEq", "FloatEqDebugUlpsDiff", "AssertFloatEq"] ++
        (if has_arg args "all_epsilon" = true then ["FloatEqAll", "AssertFloatEqAll"] else []),
        args, item⟩ := by
  simp [expand_derive_float_eq, h1, h2]

/-- Witness for C4: all three keys present yields the six requested
traits; only the two required keys present yields the four. -/
theorem C4_witness :
    expand_derive_float_eq inpNamed2.attrs inpNamed2 =
      .ok ⟨["FloatEqUlpsEpsilon", "FloatEq", "FloatEqDebugUlpsDiff", "AssertFloatEq",
        "FloatEqAll", "AssertFloatEqAll"], inpNamed2.attrs, inpNamed2⟩ ∧
    expand_derive_float_eq
        [.nameValue "ulps_epsilon" "PointUlps", .nameValue "debug_ulps_diff" "PointDiff"]
        inpNamed2 =
      .ok ⟨["FloatEqUlpsEpsilon", "FloatEq", "FloatEqDebugUlpsDiff", "AssertFloatEq"],
        [.nameValue "ulps_epsilon" "PointUlps", .nameValue "debug_ulps_diff" "PointDiff"],
        inpNamed2⟩ :=
  ⟨C4_requested_traits inpNamed2.attrs inpNamed2 rfl rfl,
    C4_requested_traits
      [.nameValue "ulps_epsilon" "PointUlps", .nameValue "debug_ulps_diff" "PointDiff"]
      inpNamed2 rfl rfl⟩

/-- Claim C10: every successful top-level expansion re-emits the annotated
item unchanged, forwards every original attribute argument verbatim to the
`#[float_eq(...)]` attribute, and prepends only the derive attribute with
the requested trait names. -/
theorem C10_item_reemitted (args : List Arg) (item : DeriveInput)
    (out : DeriveFloatEqOutput)
    (hok : expand_derive_float_eq args item = .ok out) :
    out.item = item ∧ out.forwardedArgs = args ∧
    out.derives = ["FloatEqUlpsEpsilon", "FloatEq", "FloatEqDebugUlpsDiff", "AssertFloatEq"] ++
      (if has_arg args "all_epsilon" = true then ["FloatEqAll", "AssertFloatEqAll"] else []) := by
  unfold expand_derive_float_eq at hok
  split at hok
  · exact absurd hok (by simp)
  · split at hok
    · exact absurd hok (by simp)
    · simp only [Except.ok.injEq] at hok
      subst hok
      exact ⟨rfl, rfl, rfl⟩

/-- The attribute arguments of `inpNamed2` with one extra, unrecognized
argument appended. -/
def argsC10 : List Arg := inpNamed2.attrs ++ [.nameValue "mystery" "Unknown"]

/-- The output of the top-level expansion at `argsC10` / `inpNamed2`. -/
def outC10 : DeriveFloatEqOutput :=
  ⟨["FloatEqUlpsEpsilon", "FloatEq", "FloatEqDebugUlpsDiff", "AssertFloatEq",
    "FloatEqAll", "AssertFloatEqAll"], argsC10, inpNamed2⟩

/-- Witness for C10 at `inpNamed2` with an unrecognized extra argument,
forwarded verbatim. -/
theorem C10_witness :
    outC10.item = inpNamed2 ∧ outC10.forwardedArgs = argsC10 ∧
    outC10.derives =
      ["FloatEqUlpsEpsilon", "FloatEq", "FloatEqDebugUlpsDiff", "AssertFloatEq"] ++
        (if has_arg argsC10 "all_epsilon" = true
          then ["FloatEqAll", "AssertFloatEqAll"] else []) :=
  C10_item_reemitted argsC10 inpNamed2 outC10 (by rfl)

/-- Mapping the second components of an indexed list is mapping the plain
list. -/
theorem map_enumFrom_snd {β : Type} (g : String → β) (n : Nat) (ts : List String) :
    (List.enumFrom n ts).map (fun p => g p.2) = ts.map g := by
  induction ts generalizing n with
  | nil => rfl
  | cons t rest ih => simp [List.enumFrom, ih]

/-- Inversion of a successful `expand_float_eq_ulps_epsilon`. -/
theorem expand_ulps_ok_inv (input : DeriveInput) (out : UlpsEpsilonOutput)
    (hok : expand_float_eq_ulps_epsilon input = .ok out) :
    ∃ fi u, all_fields_info "FloatEqUlpsEpsilon" input = .ok fi ∧
      ulps_epsilon_type input = .ok u ∧
      out = ⟨⟨input.vis, u,
        (match fi.ty with
          | .Named => .named (fi.fields.map fun f => (f.name, ulpsEpsilonTy f.ty))
          | .Tuple => .tuple (fi.fields.map fun f => ulpsEpsilonTy f.ty)
          | .Unit => .unit),
        ["Clone", "Copy", "Debug", "PartialEq"]⟩, input.ident, u⟩ := by
  unfold expand_float_eq_ulps_epsilon at hok
  cases hfi : all_fields_info "FloatEqUlpsEpsilon" input with
  | error e => rw [hfi] at hok; simp [Bind.bind, Except.bind] at hok
  | ok fi =>
    rw [hfi] at hok
    cases hu : ulps_epsilon_type input with
    | error e => rw [hu] at hok; simp [Bind.bind, Except.bind] at hok
    | ok u =>
      rw [hu] at hok
      simp only [Bind.bind, Except.bind, Except.ok.injEq] at hok
      exact ⟨fi, u, rfl, rfl, hok.symm⟩

/-- Inversion of a successful `expand_float_eq_debug_ulps_diff`. -/
theorem expand_debug_diff_ok_inv (input : DeriveInput) (out : DebugUlpsDiffOutput)
    (hok : expand_float_eq_debug_ulps_diff input = .ok out) :
    ∃ fi d, all_fields_info "FloatEqDebugUlpsDiff" input = .ok fi ∧
      debug_ulps_diff_type input = .ok d ∧
      out = ⟨⟨input.vis, d,
        (match fi.ty with
          | .Named => .named (fi.fields.map fun f => (f.name, debugUlpsDiffTy f.ty))
          | .Tuple => .tuple (fi.fields.map fun f => debugUlpsDiffTy f.ty)
          | .Unit => .unit),
        ["Clone", "Copy", "Debug", "PartialEq"]⟩, input.ident, d⟩ := by
  unfold expand_float_eq_debug_ulps_diff at hok
  cases hfi : all_fields_info "FloatEqDebugUlpsDiff" input with
  | error e => rw [hfi] at hok; simp [Bind.bind, Except.bind] at hok
  | ok fi =>
    rw [hfi] at hok
    cases hd : debug_ulps_diff_type input with
    | error e => rw [hd] at hok; simp [Bind.bind, Except.bind] at hok
    | ok d =>
      rw [hd] at hok
      simp only [Bind.bind, Except.bind, Except.ok.injEq] at hok
      exact ⟨fi, d, rfl, rfl, hok.symm⟩

/-- What claim C5 states about one emitted companion type: it carries the
original declaration's visibility, derives Clone, Copy, Debug and
PartialEq, and mirrors the original field shape with each field type `T`
replaced by `mapTy T` (a field-less unit declaration for the empty
shape). -/
def companionMirrors (input : DeriveInput) (mapTy : String → String)
    (c : CompanionDecl) : Prop :=
  c.vis = input.vis ∧
  c.derives = ["Clone", "Copy", "Debug", "PartialEq"] ∧
  match input.data with
  | .structData (.named fs) => c.body = .named (fs.map fun f => (f.1, mapTy f.2))
  | .structData (.tuple ts) => c.body = .tuple (ts.map mapTy)
  | .structData .unit => c.body = .unit
  | .enumData _ => False
  | .unionData _ => False

/-- Claim C5: for every supported aggregate shape, each of the two emitted
companion type declarations mirrors the original field shape, replaces each
field type `T` with `float_eq::UlpsEpsilon<T>` respectively
`float_eq::DebugUlpsDiff<T>`, carries the original declared visibility, and
derives Clone, Copy, Debug and PartialEq; the empty shape yields field-less
unit companions. -/
theorem C5_companion_decls (input : DeriveInput) (out1 : UlpsEpsilonOutput)
    (out2 : DebugUlpsDiffOutput)
    (h1 : expand_float_eq_ulps_epsilon input = .ok out1)
    (h2 : expand_float_eq_debug_ulps_diff input = .ok out2) :
    companionMirrors input ulpsEpsilonTy out1.companion ∧
    companionMirrors input debugUlpsDiffTy out2.companion := by
  obtain ⟨fi, u, hfi, hu, hout1⟩ := expand_ulps_ok_inv input out1 h1
  obtain ⟨fi', d, hfi', hd, hout2⟩ := expand_debug_diff_ok_inv input out2 h2
  have hfi'' := all_fields_info_irrel "FloatEqUlpsEpsilon" "FloatEqDebugUlpsDiff" input fi hfi
  rw [hfi''] at hfi'
  injection hfi' with hfi'
  subst hfi'
  subst hout1
  subst hout2
  cases hdd : input.data with
  | structData sf =>
    cases sf with
    | named fs =>
      simp only [all_fields_info, hdd, Except.ok.injEq] at hfi
      subst hfi
      refine ⟨⟨rfl, rfl, ?_⟩, ⟨rfl, rfl, ?_⟩⟩ <;>
        simp [hdd, List.map_map, Function.comp_def]
    | tuple ts =>
      simp only [all_fields_info, hdd, Except.ok.injEq] at hfi
      subst hfi
      refine ⟨⟨rfl, rfl, ?_⟩, ⟨rfl, rfl, ?_⟩⟩ <;>
        simp [hdd, List.enum, List.map_map, Function.comp_def, map_enumFrom_snd]
    | unit =>
      simp only [all_fields_info, hdd, Except.ok.injEq] at hfi
      subst hfi
      refine ⟨⟨rfl, rfl, ?_⟩, ⟨rfl, rfl, ?_⟩⟩ <;> simp [hdd]
  | enumData vs => simp [all_fields_info, hdd] at hfi
  | unionData fs => simp [all_fields_info, hdd] at hfi

/-- Witness for C5 at the two-field named struct `inpNamed2`. -/
theorem C5_witness :
    companionMirrors inpNamed2 ulpsEpsilonTy
      (CompanionDecl.mk "pub" "PointUlps"
        (.named [("x", ulpsEpsilonTy "f64"), ("y", ulpsEpsilonTy "f64")])
        ["Clone", "Copy", "Debug", "PartialEq"]) ∧
    companionMirrors inpNamed2 debugUlpsDiffTy
      (CompanionDecl.mk "pub" "PointDiff"
        (.named [("x", debugUlpsDiffTy "f64"), ("y", debugUlpsDiffTy "f64")])
        ["Clone", "Copy", "Debug", "PartialEq"]) :=
  C5_companion_decls inpNamed2
    ⟨⟨"pub", "PointUlps",
      .named [("x", ulpsEpsilonTy "f64"), ("y", ulpsEpsilonTy "f64")],
      ["Clone", "Copy", "Debug", "PartialEq"]⟩, "Point", "PointUlps"⟩
    ⟨⟨"pub", "PointDiff",
      .named [("x", debugUlpsDiffTy "f64"), ("y", debugUlpsDiffTy "f64")],
      ["Clone", "Copy", "Debug", "PartialEq"]⟩, "Point", "PointDiff"⟩
    (by rfl) (by rfl)

/-- Claim C6: every emitted trait implementation declares the associated
types its trait contract requires: the `FloatEqUlpsEpsilon` impl binds
`UlpsEpsilon` to the configured `ulps_epsilon` name (the emitted companion's
own name), the `FloatEqDebugUlpsDiff` impl binds `DebugUlpsDiff` to the
configured `debug_ulps_diff` name (again the companion's name), the
`FloatEq` impl binds `Epsilon` to `Self`, and the `FloatEqAll` impl binds
`AllEpsilon` to the configured `all_epsilon` name. -/
theorem C6_assoc_types (input : DeriveInput) (o1 : UlpsEpsilonOutput)
    (o2 : DebugUlpsDiffOutput) (o3 : FloatEqImpl) (o4 : FloatEqAllImpl)
    (u d a : String)
    (h1 : expand_float_eq_ulps_epsilon input = .ok o1)
    (h2 : expand_float_eq_debug_ulps_diff input = .ok o2)
    (h3 : expand_float_eq input = .ok o3)
    (h4 : expand_float_eq_all input = .ok o4)
    (hu : ulps_epsilon_type input = .ok u)
    (hd : debug_ulps_diff_type input = .ok d)
    (ha : all_epsilon_type input = .ok a) :
    o1.assocUlpsEpsilon = u ∧ o1.companion.name = u ∧ o1.implFor = input.ident ∧
    o2.assocDebugUlpsDiff = d ∧ o2.companion.name = d ∧ o2.implFor = input.ident ∧
    o3.epsilonAssoc = "Self" ∧ o4.allEpsilonAssoc = a := by
  obtain ⟨fi, u', hfi, hu', hout1⟩ := expand_ulps_ok_inv input o1 h1
  rw [hu] at hu'
  injection hu' with hu'
  subst hu'
  obtain ⟨fi2, d', hfi2, hd', hout2⟩ := expand_debug_diff_ok_inv input o2 h2
  rw [hd] at hd'
  injection hd' with hd'
  subst hd'
  obtain ⟨u2, hu2, hout3⟩ := expand_float_eq_ok_inv input fi o3
    (all_fields_info_irrel _ "FloatEq" input fi hfi) h3
  obtain ⟨a', ha', hout4⟩ := expand_float_eq_all_ok_inv input fi o4
    (all_fields_info_irrel _ "FloatEqAll" input fi hfi) h4
  rw [ha] at ha'
  injection ha' with ha'
  subst ha'
  subst hout1
  subst hout2
  subst hout3
  subst hout4
  exact ⟨rfl, rfl, rfl, rfl, rfl, rfl, rfl, rfl⟩

/-- Witness for C6 at `inpNamed2`. -/
theorem C6_witness :
    (UlpsEpsilonOutput.mk
      ⟨"pub", "PointUlps",
        .named [("x", ulpsEpsilonTy "f64"), ("y", ulpsEpsilonTy "f64")],
        ["Clone", "Copy", "Debug", "PartialEq"]⟩ "Point" "PointUlps").assocUlpsEpsilon =
      "PointUlps" ∧
    (UlpsEpsilonOutput.mk
      ⟨"pub", "PointUlps",
        .named [("x", ulpsEpsilonTy "f64"), ("y", ulpsEpsilonTy "f64")],
        ["Clone", "Copy", "Debug", "PartialEq"]⟩ "Point" "PointUlps").companion.name =
      "PointUlps" ∧
    (UlpsEpsilonOutput.mk
      ⟨"pub", "PointUlps",
        .named [("x", ulpsEpsilonTy "f64"), ("y", ulpsEpsilonTy "f64")],
        ["Clone", "Copy", "Debug", "PartialEq"]⟩ "Point" "PointUlps").implFor =
      inpNamed2.ident ∧
    (DebugUlpsDiffOutput.mk
      ⟨"pub", "PointDiff",
        .named [("x", debugUlpsDiffTy "f64"), ("y", debugUlpsDiffTy "f64")],
        ["Clone", "Copy", "Debug", "PartialEq"]⟩ "Point" "PointDiff").assocDebugUlpsDiff =
      "PointDiff" ∧
    (DebugUlpsDiffOutput.mk
      ⟨"pub", "PointDiff",
        .named [("x", debugUlpsDiffTy "f64"), ("y", debugUlpsDiffTy "f64")],
        ["Clone", "Copy", "Debug", "PartialEq"]⟩ "Point" "PointDiff").companion.name =
      "PointDiff" ∧
    (DebugUlpsDiffOutput.mk
      ⟨"pub", "PointDiff",
        .named [("x", debugUlpsDiffTy "f64"), ("y", debugUlpsDiffTy "f64")],
        ["Clone", "Copy", "Debug", "PartialEq"]⟩ "Point" "PointDiff").implFor =
      inpNamed2.ident ∧
    outFloatEqNamed2.epsilonAssoc = "Self" ∧
    outFloatEqAllNamed2.allEpsilonAssoc = "f64" :=
  C6_assoc_types inpNamed2 _ _ outFloatEqNamed2 outFloatEqAllNamed2
    "PointUlps" "PointDiff" "f64" (by rfl) (by rfl) (by rfl) (by rfl) rfl rfl rfl

/-- Inversion of a successful `expand_assert_float_eq`. -/
theorem expand_assert_ok_inv (input : DeriveInput) (out : AssertFloatEqImpl)
    (hok : expand_assert_float_eq input = .ok out) :
    ∃ fi u d, all_fields_info "AssertFloatEq" input = .ok fi ∧
      ulps_epsilon_type input = .ok u ∧ debug_ulps_diff_type input = .ok d ∧
      out = ⟨input.ident, "Self", "Self",
        .braced "Self" (expand_diff_fields fi "debug_abs_diff"),
        .braced d (expand_diff_fields fi "debug_ulps_diff"),
        .braced "Self" (expand_eps_fields fi "debug_abs_epsilon"),
        .braced "Self" (expand_eps_fields fi "debug_rmax_epsilon"),
        .braced "Self" (expand_eps_fields fi "debug_rmin_epsilon"),
        .braced "Self" (expand_eps_fields fi "debug_r1st_epsilon"),
        .braced "Self" (expand_eps_fields fi "debug_r2nd_epsilon"),
        .braced u (expand_eps_fields fi "debug_ulps_epsilon")⟩ := by
  unfold expand_assert_float_eq at hok
  cases hfi : all_fields_info "AssertFloatEq" input with
  | error e => rw [hfi] at hok; simp [Bind.bind, Except.bind] at hok
  | ok fi =>
    rw [hfi] at hok
    cases hu : ulps_epsilon_type input with
    | error e => rw [hu] at hok; simp [Bind.bind, Except.bind] at hok
    | ok u =>
      rw [hu] at hok
      cases hd : debug_ulps_diff_type input with
      | error e => rw [hd] at hok; simp [Bind.bind, Except.bind] at hok
      | ok d =>
        rw [hd] at hok
        simp only [Bind.bind, Except.bind, Except.ok.injEq] at hok
        exact ⟨fi, u, d, rfl, rfl, rfl, hok.symm⟩

/-- Inversion of a successful `expand_assert_float_eq_all`. -/
theorem expand_assert_all_ok_inv (input : DeriveInput) (out : AssertFloatEqAllImpl)
    (hok : expand_assert_float_eq_all input = .ok out) :
    ∃ fi a, all_fields_info "AssertFloatEqAll" input = .ok fi ∧
      all_epsilon_type input = .ok a ∧
      out = ⟨input.ident, "Self",
        .braced "Self" (expand_all_eps_fields fi "debug_abs_all_epsilon"),
        .braced "Self" (expand_all_eps_fields fi "debug_rmax_all_epsilon"),
        .braced "Self" (expand_all_eps_fields fi "debug_rmin_all_epsilon"),
        .braced "Self" (expand_all_eps_fields fi "debug_r1st_all_epsilon"),
        .braced "Self" (expand_all_eps_fields fi "debug_r2nd_all_epsilon"),
        .braced "::float_eq::UlpsEpsilon::<Self::AllDebugEpsilon>"
          (expand_all_eps_fields fi "debug_ulps_all_epsilon")⟩ := by
  unfold expand_assert_float_eq_all at hok
  cases hfi : all_fields_info "AssertFloatEqAll" input with
  | error e => rw [hfi] at hok; simp [Bind.bind, Except.bind] at hok
  | ok fi =>
    rw [hfi] at hok
    cases ha : all_epsilon_type input with
    | error e => rw [ha] at hok; simp [Bind.bind, Except.bind] at hok
    | ok a =>
      rw [ha] at hok
      simp only [Bind.bind, Except.bind, Except.ok.injEq] at hok
      exact ⟨fi, a, rfl, rfl, hok.symm⟩

/-- The constructor-syntax discipline claim C7 asserts: named aggregates
get a braced `name: value` construction, positional ones an ordered
positional construction, and empty ones a bare marker construction. -/
def ctorMatchesShape : FieldListType → CtorExpr → Bool
  | .Named, .braced _ _ => true
  | .Tuple, .positional _ _ => true
  | .Unit, .bare _ => true
  | _, _ => false

/-- Counterexample to C7 as stated: for the positional aggregate
`struct Wrap(f32);` the emitted `debug_abs_diff` body (and the shared
variant's `debug_abs_all_epsilon` body) is not a positional construction,
and for the empty aggregate `struct Marker;` it is not a bare marker
construction — the emitters use a braced constructor in every case. -/
theorem C7_counterexample :
    (expand_assert_float_eq inpTuple1).map
      (fun o => ctorMatchesShape .Tuple o.debug_abs_diff) = .ok false ∧
    (expand_assert_float_eq inpUnit).map
      (fun o => ctorMatchesShape .Unit o.debug_abs_diff) = .ok false ∧
    (expand_assert_float_eq_all inpTuple1).map
      (fun o => ctorMatchesShape .Tuple o.debug_abs_all_epsilon) = .ok false :=
  ⟨rfl, rfl, rfl⟩

/-- Claim C7 as amended: for every supported shape, each value-producing
method body wraps the per-field method-call assignments into a braced
constructor (`Self`, the configured companion name, or the ULPS-epsilon
path for `debug_ulps_all_epsilon`), one `label: call` assignment per field
in declaration order — the label being the field name for named aggregates
and the integer index for positional ones, and the empty shape yielding a
braced constructor with no assignments; the constructor never switches to
positional or bare syntax. -/
theorem C7_braced_ctor (input : DeriveInput) (fi : FieldsInfo)
    (out : AssertFloatEqImpl) (outAll : AssertFloatEqAllImpl) (u d : String)
    (hfi : all_fields_info "AssertFloatEq" input = .ok fi)
    (hu : ulps_epsilon_type input = .ok u)
    (hd : debug_ulps_diff_type input = .ok d)
    (hok : expand_assert_float_eq input = .ok out)
    (hokAll : expand_assert_float_eq_all input = .ok outAll) :
    out.debug_abs_diff = .braced "Self"
      (fi.fields.map fun f => (f.name, ⟨f.name, "debug_abs_diff", .otherOnly⟩)) ∧
    out.debug_ulps_diff = .braced d
      (fi.fields.map fun f => (f.name, ⟨f.name, "debug_ulps_diff", .otherOnly⟩)) ∧
    out.debug_abs_epsilon = .braced "Self"
      (fi.fields.map fun f => (f.name, ⟨f.name, "debug_abs_epsilon", .otherAndProjEps⟩)) ∧
    out.debug_rmax_epsilon = .braced "Self"
      (fi.fields.map fun f => (f.name, ⟨f.name, "debug_rmax_epsilon", .otherAndProjEps⟩)) ∧
    out.debug_rmin_epsilon = .braced "Self"
      (fi.fields.map fun f => (f.name, ⟨f.name, "debug_rmin_epsilon", .otherAndProjEps⟩)) ∧
    out.debug_r1st_epsilon = .braced "Self"
      (fi.fields.map fun f => (f.name, ⟨f.name, "debug_r1st_epsilon", .otherAndProjEps⟩)) ∧
    out.debug_r2nd_epsilon = .braced "Self"
      (fi.fields.map fun f => (f.name, ⟨f.name, "debug_r2nd_epsilon", .otherAndProjEps⟩)) ∧
    out.debug_ulps_epsilon = .braced u
      (fi.fields.map fun f => (f.name, ⟨f.name, "debug_ulps_epsilon", .otherAndProjEps⟩)) ∧
    outAll.debug_abs_all_epsilon = .braced "Self"
      (fi.fields.map fun f => (f.name, ⟨f.name, "debug_abs_all_epsilon", .otherAndSharedEps⟩)) ∧
    outAll.debug_rmax_all_epsilon = .braced "Self"
      (fi.fields.map fun f => (f.name, ⟨f.name, "debug_rmax_all_epsilon", .otherAndSharedEps⟩)) ∧
    outAll.debug_rmin_all_epsilon = .braced "Self"
      (fi.fields.map fun f => (f.name, ⟨f.name, "debug_rmin_all_epsilon", .otherAndSharedEps⟩)) ∧
    outAll.debug_r1st_all_epsilon = .braced "Self"
      (fi.fields.map fun f => (f.name, ⟨f.name, "debug_r1st_all_epsilon", .otherAndSharedEps⟩)) ∧
    outAll.debug_r2nd_all_epsilon = .braced "Self"
      (fi.fields.map fun f => (f.name, ⟨f.name, "debug_r2nd_all_epsilon", .otherAndSharedEps⟩)) ∧
    outAll.debug_ulps_all_epsilon = .braced "::float_eq::UlpsEpsilon::<Self::AllDebugEpsilon>"
      (fi.fields.map fun f => (f.name, ⟨f.name, "debug_ulps_all_epsilon", .otherAndSharedEps⟩)) := by
  obtain ⟨fi1, u1, d1, hfi1, hu1, hd1, hout⟩ := expand_assert_ok_inv input out hok
  obtain ⟨fi2, a2, hfi2, ha2, houtAll⟩ := expand_assert_all_ok_inv input outAll hokAll
  rw [hfi] at hfi1
  injection hfi1 with hfi1
  subst hfi1
  rw [hu] at hu1
  injection hu1 with hu1
  subst hu1
  rw [hd] at hd1
  injection hd1 with hd1
  subst hd1
  rw [all_fields_info_irrel "AssertFloatEq" "AssertFloatEqAll" input fi hfi] at hfi2
  injection hfi2 with hfi2
  subst hfi2
  subst hout
  subst houtAll
  exact ⟨rfl, rfl, rfl, rfl, rfl, rfl, rfl, rfl, rfl, rfl, rfl, rfl, rfl, rfl⟩

/-- The extracted field list of `inpTuple1`. -/
def fiTuple1 : FieldsInfo := ⟨.Tuple, [⟨"0", "f32"⟩]⟩

/-- The `AssertFloatEq` impl emitted for `inpTuple1`. -/
def outAssertTuple1 : AssertFloatEqImpl :=
  ⟨"Wrap", "Self", "Self",
    .braced "Self" [("0", ⟨"0", "debug_abs_diff", .otherOnly⟩)],
    .braced "WrapDiff" [("0", ⟨"0", "debug_ulps_diff", .otherOnly⟩)],
    .braced "Self" [("0", ⟨"0", "debug_abs_epsilon", .otherAndProjEps⟩)],
    .braced "Self" [("0", ⟨"0", "debug_rmax_epsilon", .otherAndProjEps⟩)],
    .braced "Self" [("0", ⟨"0", "debug_rmin_epsilon", .otherAndProjEps⟩)],
    .braced "Self" [("0", ⟨"0", "debug_r1st_epsilon", .otherAndProjEps⟩)],
    .braced "Self" [("0", ⟨"0", "debug_r2nd_epsilon", .otherAndProjEps⟩)],
    .braced "WrapUlps" [("0", ⟨"0", "debug_ulps_epsilon", .otherAndProjEps⟩)]⟩

/-- The `AssertFloatEqAll` impl emitted for `inpTuple1`. -/
def outAssertAllTuple1 : AssertFloatEqAllImpl :=
  ⟨"Wrap", "Self",
    .braced "Self" [("0", ⟨"0", "debug_abs_all_epsilon", .otherAndSharedEps⟩)],
    .braced "Self" [("0", ⟨"0", "debug_rmax_all_epsilon", .otherAndSharedEps⟩)],
    .braced "Self" [("0", ⟨"0", "debug_rmin_all_epsilon", .otherAndSharedEps⟩)],
    .braced "Self" [("0", ⟨"0", "debug_r1st_all_epsilon", .otherAndSharedEps⟩)],
    .braced "Self" [("0", ⟨"0", "debug_r2nd_all_epsilon", .otherAndSharedEps⟩)],
    .braced "::float_eq::UlpsEpsilon::<Self::AllDebugEpsilon>"
      [("0", ⟨"0", "debug_ulps_all_epsilon", .otherAndSharedEps⟩)]⟩

/-- Witness for the amended C7 at the positional aggregate `inpTuple1`:
the labels of the braced constructors are the integer indices. -/
theorem C7_witness :
    outAssertTuple1.debug_abs_diff = .braced "Self"
      (fiTuple1.fields.map fun f => (f.name, ⟨f.name, "debug_abs_diff", .otherOnly⟩)) ∧
    outAssertTuple1.debug_ulps_diff = .braced "WrapDiff"
      (fiTuple1.fields.map fun f => (f.name, ⟨f.name, "debug_ulps_diff", .otherOnly⟩)) ∧
    outAssertAllTuple1.debug_ulps_all_epsilon =
      .braced "::float_eq::UlpsEpsilon::<Self::AllDebugEpsilon>"
        (fiTuple1.fields.map fun f =>
          (f.name, ⟨f.name, "debug_ulps_all_epsilon", .otherAndSharedEps⟩)) := by
  have h := C7_braced_ctor inpTuple1 fiTuple1 outAssertTuple1 outAssertAllTuple1
    "WrapUlps" "WrapDiff" (by rfl) rfl rfl (by rfl) (by rfl)
  exact ⟨h.1, h.2.1, h.2.2.2.2.2.2.2.2.2.2.2.2.2⟩

/-- Claim C8: classification of the annotated declaration is a total
function of its data shape: each of the three supported struct shapes is
classified to its `FieldListType` with the descriptors in declaration
order, and every other declaration shape (an enum or a union) fails with an
unsupported-shape error naming the trait being derived at the time of
classification. -/
theorem C8_shape_classification (traitName : String) (input : DeriveInput) :
    (∀ vs, input.data = .enumData vs →
      all_fields_info traitName input = .error (.unsupportedShape traitName)) ∧
    (∀ fs, input.data = .unionData fs →
      all_fields_info traitName input = .error (.unsupportedShape traitName)) ∧
    (∀ fs, input.data = .structData (.named fs) →
      all_fields_info traitName input = .ok ⟨.Named, fs.map fun f => ⟨f.1, f.2⟩⟩) ∧
    (∀ ts, input.data = .structData (.tuple ts) →
      all_fields_info traitName input =
        .ok ⟨.Tuple, ts.enum.map fun p => ⟨toString p.1, p.2⟩⟩) ∧
    (input.data = .structData .unit →
      all_fields_info traitName input = .ok ⟨.Unit, []⟩) := by
  refine ⟨fun vs h => ?_, fun fs h => ?_, fun fs h => ?_, fun ts h => ?_, fun h => ?_⟩ <;>
    simp [all_fields_info, h]

/-- Witness for C8: the enum `inpEnum` is rejected with the deriving
trait's name in the error, under two different trait names, and the named
struct `inpNamed2` is classified `Named` with its fields in order. -/
theorem C8_witness :
    all_fields_info "FloatEq" inpEnum = .error (.unsupportedShape "FloatEq") ∧
    all_fields_info "FloatEqUlpsEpsilon" inpEnum =
      .error (.unsupportedShape "FloatEqUlpsEpsilon") ∧
    all_fields_info "FloatEq" inpNamed2 =
      .ok ⟨.Named, [("x", "f64"), ("y", "f64")].map fun f => ⟨f.1, f.2⟩⟩ :=
  ⟨(C8_shape_classification "FloatEq" inpEnum).1 ["A", "B"] rfl,
    (C8_shape_classification "FloatEqUlpsEpsilon" inpEnum).1 ["A", "B"] rfl,
    (C8_shape_classification "FloatEq" inpNamed2).2.2.1 [("x", "f64"), ("y", "f64")] rfl⟩

/-- `has_arg` is true exactly when some well-formed `name = "value"` pair
with that name is among the arguments. -/
theorem has_arg_true_iff (args : List Arg) (key : String) :
    has_arg args key = true ↔ ∃ v, Arg.nameValue key v ∈ args := by
  unfold has_arg
  rw [List.any_eq_true]
  constructor
  · rintro ⟨a, ha, hp⟩
    cases a with
    | nameValue n v =>
      simp only [name_type_pair, beq_iff_eq] at hp
      subst hp
      exact ⟨v, ha⟩
    | malformed t => simp [name_type_pair] at hp
  · rintro ⟨v, hv⟩
    exact ⟨.nameValue key v, hv, by simp [name_type_pair]⟩

/-- `has_arg` is false when no well-formed `name = "value"` pair with that
name is among the arguments, whatever malformed arguments are present. -/
theorem has_arg_eq_false (args : List Arg) (key : String)
    (h : ∀ v, Arg.nameValue key v ∉ args) : has_arg args key = false := by
  cases hb : has_arg args key with
  | false => rfl
  | true =>
    obtain ⟨v, hv⟩ := (has_arg_true_iff args key).1 hb
    exact absurd hv (h v)

/-- Claim C9: an attribute argument that fails to parse as a
`name = "value"` pair is silently ignored by the top-level presence check,
so an invocation whose `ulps_epsilon` argument is present only in malformed
form is reported as missing `ulps_epsilon`, and one whose
`debug_ulps_diff` argument is present only in malformed form is reported
as missing `debug_ulps_diff` — in both cases a missing-required-parameter
error for that key, never a malformed-parameter-value error. -/
theorem C9_malformed_ignored (args : List Arg) (item : DeriveInput) (mtext : String)
    (_hm : Arg.malformed mtext ∈ args) :
    ((∀ v, Arg.nameValue "ulps_epsilon" v ∉ args) →
      has_arg args "ulps_epsilon" = false ∧
      expand_derive_float_eq args item =
        .error (.missingRequiredParameter "ulps_epsilon" (item.ident ++ "Ulps")
          (missing_ulps_epsilon_message item.ident))) ∧
    (has_arg args "ulps_epsilon" = true →
      (∀ v, Arg.nameValue "debug_ulps_diff" v ∉ args) →
      has_arg args "debug_ulps_diff" = false ∧
      expand_derive_float_eq args item =
        .error (.missingRequiredParameter "debug_ulps_diff" (item.ident ++ "DebugUlpsDiff")
          (missing_debug_ulps_diff_message item.ident))) := by
  constructor
  · intro hwf
    have hfalse := has_arg_eq_false args "ulps_epsilon" hwf
    exact ⟨hfalse, by simp [expand_derive_float_eq, hfalse]⟩
  · intro h1 hwf
    have hfalse := has_arg_eq_false args "debug_ulps_diff" hwf
    exact ⟨hfalse, by simp [expand_derive_float_eq, h1, hfalse]⟩

/-- Witness for C9, both keys: `ulps_epsilon` present only as the
malformed argument `ulps_epsilon = 42` yields the missing-`ulps_epsilon`
error, and `debug_ulps_diff` present only as the malformed argument
`debug_ulps_diff = 42` (with `ulps_epsilon` well-formed) yields the
missing-`debug_ulps_diff` error. -/
theorem C9_witness :
    has_arg [Arg.malformed "ulps_epsilon = 42",
      Arg.nameValue "debug_ulps_diff" "PointDiff"] "ulps_epsilon" = false ∧
    expand_derive_float_eq
        [Arg.malformed "ulps_epsilon = 42", Arg.nameValue "debug_ulps_diff" "PointDiff"]
        inpNamed2 =
      .error (.missingRequiredParameter "ulps_epsilon" "PointUlps"
        (missing_ulps_epsilon_message "Point")) ∧
    has_arg [Arg.nameValue "ulps_epsilon" "PointUlps",
      Arg.malformed "debug_ulps_diff = 42"] "debug_ulps_diff" = false ∧
    expand_derive_float_eq
        [Arg.nameValue "ulps_epsilon" "PointUlps", Arg.malformed "debug_ulps_diff = 42"]
        inpNamed2 =
      .error (.missingRequiredParameter "debug_ulps_diff" "PointDebugUlpsDiff"
        (missing_debug_ulps_diff_message "Point")) := by
  have hA := (C9_malformed_ignored
    [Arg.malformed "ulps_epsilon = 42", Arg.nameValue "debug_ulps_diff" "PointDiff"]
    inpNamed2 "ulps_epsilon = 42" (by simp)).1 (by intro v; simp)
  have hB := (C9_malformed_ignored
    [Arg.nameValue "ulps_epsilon" "PointUlps", Arg.malformed "debug_ulps_diff = 42"]
    inpNamed2 "debug_ulps_diff = 42" (by simp)).2 rfl (by intro v; simp)
  exact ⟨hA.1, hA.2, hB.1, hB.2⟩

end FloatEqDerive
